import Mathlib

/-!
# Verification of `pkg/plugin/es/es.go`

A shallow embedding of the Elasticsearch wrapper: the client constructor, the
builder-style search parameters and the seven operations of the `ES` type.

The Go code is effectful.  Each operation is embedded as a function that
yields a `Run`: the list of observable events, in program order (calls made
on the wrapped client, JSON encodings, console output, released response
bodies), together with the way the call ended (`Outcome`).  The wrapped
client library and the standard-library routines the code calls are
parameters (`Client`, `Lib`).
-/

namespace Genesis.Es

/-! ## Go values -/

/-- Go byte slices and the contents of buffers and streams. -/
abbrev Bytes := List UInt8

/-- A non-nil value of Go interface type `error`.  A Go `error` that may be nil
is an `Option Error`. -/
structure Error where
  msg : String
deriving DecidableEq, Repr

/-- A value of Go type `any`, as far as the JSON encoder can tell values
apart.  `func` stands for the values the encoder rejects. -/
inductive GoAny where
  | null
  | bool (b : Bool)
  | int (i : Int)
  | str (s : String)
  | slice (xs : List GoAny)
  | map (kvs : List (String × GoAny))
  | func

/-- Go type `map[string]any`: the entries of the map. -/
abbrev GoMap := List (String × GoAny)

/-- How a Go call ends: it returns, it panics (here always the runtime's nil
pointer dereference), or it terminates the process (`os.Exit`). -/
inductive Outcome (α : Type) where
  | ret (a : α)
  | panic
  | exit (code : Nat)
deriving DecidableEq, Repr

/-! ## Search parameters: `WithEsSearch` and its setters (es.go 50-80) -/

/-- The struct `WithEsSearch`.  Field `from_` is the Go field `from`; Go `int`
values are integers (no arithmetic is done on them). -/
structure WithEsSearch where
  index : String
  query : GoMap
  from_ : Int
  size : Int
  sort : String

/-- A Go pointer `*WithEsSearch`: nil or the address of an allocated struct. -/
abbrev Ptr := Option Nat

/-- The allocated `WithEsSearch` structs; address `a` holds `cells[a]`. -/
structure Heap where
  cells : List WithEsSearch

/-- Reading through a pointer: nothing for nil (and for an address never
allocated, which a Go program cannot hold). -/
def Heap.deref (h : Heap) : Ptr → Option WithEsSearch
  | none => none
  | some a => h.cells[a]?

/-- Overwriting the struct at address `a`. -/
def Heap.store (h : Heap) (a : Nat) (o : WithEsSearch) : Heap :=
  ⟨h.cells.set a o⟩

/-- The function `NewWithEsSearch(index, query)`: it allocates the struct literal (the field
`sort` not named in the literal has the zero value `""`) and returns its
address. -/
def NewWithEsSearch (h : Heap) (index : String) (query : GoMap) : Heap × Ptr :=
  (⟨h.cells ++ [{ index := index, query := query, from_ := 0, size := 10, sort := "" }]⟩,
   some h.cells.length)

/-- The method `(w *WithEsSearch) WithEsFrom(from)`: `w.from = from; return w`. -/
def WithEsFrom (h : Heap) (w : Ptr) (v : Int) : Outcome (Heap × Ptr) :=
  match w with
  | none => .panic
  | some a =>
    match h.cells[a]? with
    | none => .panic
    | some o => .ret (h.store a { o with from_ := v }, w)

/-- The method `(w *WithEsSearch) WithEsSize(size)`: `w.size = size; return w`. -/
def WithEsSize (h : Heap) (w : Ptr) (v : Int) : Outcome (Heap × Ptr) :=
  match w with
  | none => .panic
  | some a =>
    match h.cells[a]? with
    | none => .panic
    | some o => .ret (h.store a { o with size := v }, w)

/-- The method `(w *WithEsSearch) WithEsSort(sort)`: `w.sort = sort; return w`. -/
def WithEsSort (h : Heap) (w : Ptr) (v : String) : Outcome (Heap × Ptr) :=
  match w with
  | none => .panic
  | some a =>
    match h.cells[a]? with
    | none => .panic
    | some o => .ret (h.store a { o with sort := v }, w)

/-- One call in a chain `w.WithEsFrom(a).WithEsSize(b)...`. -/
inductive SetterCall where
  | withEsFrom (v : Int)
  | withEsSize (v : Int)
  | withEsSort (v : String)

/-- Running one setter call. -/
def SetterCall.run (h : Heap) (w : Ptr) : SetterCall → Outcome (Heap × Ptr)
  | .withEsFrom v => WithEsFrom h w v
  | .withEsSize v => WithEsSize h w v
  | .withEsSort v => WithEsSort h w v

/-- A chain of setter calls: each call is made on the pointer the previous
one returned. -/
def runChain (h : Heap) (w : Ptr) : List SetterCall → Outcome (Heap × Ptr)
  | [] => .ret (h, w)
  | c :: cs =>
    match c.run h w with
    | .ret (h1, w1) => runChain h1 w1 cs
    | .panic => .panic
    | .exit n => .exit n

/-- The last value a chain gives to `from`, if it gives one. -/
def lastFrom : List SetterCall → Option Int
  | [] => none
  | .withEsFrom v :: cs => (lastFrom cs).orElse (fun _ => some v)
  | _ :: cs => lastFrom cs

/-- The last value a chain gives to `size`, if it gives one. -/
def lastSize : List SetterCall → Option Int
  | [] => none
  | .withEsSize v :: cs => (lastSize cs).orElse (fun _ => some v)
  | _ :: cs => lastSize cs

/-- The last value a chain gives to `sort`, if it gives one. -/
def lastSort : List SetterCall → Option String
  | [] => none
  | .withEsSort v :: cs => (lastSort cs).orElse (fun _ => some v)
  | _ :: cs => lastSort cs

/-- The struct a chain of setter calls leaves behind when it starts from `o`:
each field holds the last value the chain gave it, or the value of `o`. -/
def chainResult (o : WithEsSearch) (cs : List SetterCall) : WithEsSearch :=
  { index := o.index
    query := o.query
    from_ := (lastFrom cs).getD o.from_
    size := (lastSize cs).getD o.size
    sort := (lastSort cs).getD o.sort }

/-! ## The wrapped libraries -/

/-- An `io.ReadCloser` holding a response body: reading it yields `data` and
then ends with `readErr` (nil at a clean end of stream). -/
structure Body where
  data : Bytes
  readErr : Option Error
deriving DecidableEq, Repr

/-- A non-nil `*esapi.Response`.  Its body is never nil: the HTTP transport
the responses come from always supplies one. -/
structure Response where
  StatusCode : Int
  Header : List (String × String)
  Body : Body
deriving DecidableEq, Repr

/-- A non-nil `*http.Response`, as `Client.Perform` yields it. -/
structure HttpResponse where
  StatusCode : Int
  Header : List (String × String)
  Body : Body
deriving DecidableEq, Repr

/-- A non-nil `*http.Request`. -/
structure Request where
  Method : String
  URL : String
  Header : List (String × String)
  Body : Bytes
deriving DecidableEq, Repr

/-- The value `context.Background()`. -/
inductive Context where
  | background
deriving DecidableEq, Repr

/-- The functional options of `Client.Search` that the wrapper builds; the
variadic `WithIndex` and `WithSort` carry the list of their arguments. -/
inductive SearchOption where
  | WithContext (ctx : Context)
  | WithIndex (v : List String)
  | WithBody (body : Bytes)
  | WithFrom (v : Int)
  | WithSize (v : Int)
  | WithSort (v : List String)
deriving DecidableEq, Repr

/-- The fields of `esapi.IndexRequest` that `IndexESApi` sets. -/
structure IndexRequest where
  Index : String
  Body : Bytes
  DocumentID : String
deriving DecidableEq, Repr

/-- The field of `esapi.SQLQueryRequest` that `SearchEsapiSql` sets. -/
structure SQLQueryRequest where
  Body : Bytes
deriving DecidableEq, Repr

/-- A Go result pair `(*esapi.Response, error)`; either part may be nil. -/
abbrev Resp := Option Response × Option Error

/-- A non-nil `*elasticsearch.Client`, given by what each of its calls that
the wrapper uses answers.  One operation of the wrapper makes each call at
most once. -/
structure Client where
  Info : Resp
  Index : String → Bytes → Resp
  IndexRequestDo : IndexRequest → Context → Resp
  Search : List SearchOption → Resp
  Delete : String → String → Resp
  DeleteByQuery : List String → Bytes → Resp
  SQLQueryRequestDo : SQLQueryRequest → Context → Resp
  Perform : Request → Option HttpResponse × Option Error

/-- The struct `ES`; its client is a live handle. -/
structure ES where
  Client : Client

/-- Modelled from the spec: the type `Config` of package
`genesis/pkg/config/common/es`, whose declaration is not among the sources
(the spec's configuration: addresses, username, password). -/
structure EsConfig where
  Address : List String
  UserName : String
  Password : String
deriving DecidableEq, Repr

/-- The fields of `tls.Config` that the constructor sets. -/
structure TlsConfig where
  MinVersion : Nat
  InsecureSkipVerify : Bool
deriving DecidableEq, Repr

/-- The field of `net.Dialer` that the constructor sets, a `time.Duration`
in nanoseconds. -/
structure Dialer where
  Timeout : Int
deriving DecidableEq, Repr

/-- The fields of `http.Transport` that the constructor sets; `DialContext`
is the method value of the dialer it is taken from. -/
structure HttpTransport where
  MaxIdleConnsPerHost : Int
  ResponseHeaderTimeout : Int
  DialContext : Dialer
  TLSClientConfig : TlsConfig
deriving DecidableEq, Repr

/-- The fields of `elasticsearch.Config` that the constructor sets. -/
structure ElasticConfig where
  Addresses : List String
  Username : String
  Password : String
  Transport : HttpTransport
deriving DecidableEq, Repr

/-- Go constant `time.Second`, in nanoseconds. -/
def timeSecond : Int := 1000000000

/-- Go constant `tls.VersionTLS12`. -/
def tlsVersionTLS12 : Nat := 0x0303

/-- The library routines the wrapper calls. -/
structure Lib where
  /-- Go `json.Marshal`. -/
  Marshal : GoAny → Except Error Bytes
  /-- The method `(*esapi.Response).String`, which accepts a nil receiver. -/
  ResponseString : Option Response → String
  /-- Go `http.NewRequest(method, url, body)`. -/
  NewRequest : String → String → Bytes → Option Request × Option Error
  /-- Go `textproto.CanonicalMIMEHeaderKey`, applied by `Header.Add`. -/
  CanonicalMIMEHeaderKey : String → String
  /-- The constructor `elasticsearch.NewClient`. -/
  NewClient : ElasticConfig → Option Client × Option Error

/-- The call `json.NewEncoder(&buf).Encode(v)` on a fresh buffer: the buffer holds what
`json.Marshal(v)` gives followed by a newline character (byte 10), as
`Encoder.Encode` is documented to write; it fails when the marshalling
fails. -/
def Encode (lib : Lib) (v : GoAny) : Except Error Bytes :=
  match lib.Marshal v with
  | .error err => .error err
  | .ok b => .ok (b ++ [10])

/-- The statement `jsonBody, _ := json.Marshal(v)`: the error is dropped and the slice is
nil (empty) when marshalling fails. -/
def marshalIgnoringError (lib : Lib) (v : GoAny) : Bytes :=
  match lib.Marshal v with
  | .error _ => []
  | .ok b => b

/-- The call `ioutil.ReadAll(body)`: the bytes read and the error that ended the
reading, if any. -/
def ReadAll (body : Body) : Option Bytes × Option Error :=
  (some body.data, body.readErr)

/-- The call `req.Header.Add(key, value)`. -/
def Request.headerAdd (lib : Lib) (req : Request) (key value : String) : Request :=
  { req with Header := req.Header ++ [(lib.CanonicalMIMEHeaderKey key, value)] }

/-! ## Events and runs -/

/-- An argument of `fmt.Println`, `log.Println` or `log.Fatalf`. -/
inductive Printed where
  | response (r : Option Response)
  | error (e : Option Error)
  | text (s : String)

/-- What an operation does that can be seen from outside it. -/
inductive Event where
  | jsonEncode (v : GoAny)
  | jsonMarshal (v : GoAny)
  | info
  | index (index : String) (body : Bytes)
  | indexRequestDo (req : IndexRequest) (ctx : Context)
  | search (options : List SearchOption)
  | delete (index : String) (id : String)
  | deleteByQuery (index : List String) (body : Bytes)
  | sqlQueryRequestDo (req : SQLQueryRequest) (ctx : Context)
  | newRequest (method : String) (url : String) (body : Bytes)
  | perform (req : Request)
  | bodyClose (body : Body)
  | fmtPrintln (args : List Printed)
  | logPrintln (args : List Printed)
  | logFatalf (format : String) (args : List Printed)

/-- The events of one call, in order, and the way the call ended. -/
structure Run (α : Type) where
  events : List Event
  outcome : Outcome α

/-! ## The client constructor (es.go 24-44) -/

/-- The value `cfg` that `NewESClient` builds from `config`. -/
def clientConfig (config : EsConfig) : ElasticConfig :=
  { Addresses := config.Address
    Username := config.UserName
    Password := config.Password
    Transport :=
      { MaxIdleConnsPerHost := 10
        ResponseHeaderTimeout := timeSecond
        DialContext := { Timeout := timeSecond }
        TLSClientConfig :=
          { MinVersion := tlsVersionTLS12
            InsecureSkipVerify := true } } }

/-- The function `NewESClient(config)`; `config` is a pointer, and reading its
fields panics when it is nil. -/
def NewESClient (lib : Lib) (config : Option EsConfig) :
    Outcome (Option Client × Option Error) :=
  match config with
  | none => .panic
  | some config =>
    match lib.NewClient (clientConfig config) with
    | (_, some err) => .ret (none, some err)
    | (es, none) => .ret (es, none)

/-! ## The operations of `ES` (es.go 82-262) -/

/-- The method `Index(index, doc)`.  The statement `defer res.Body.Close()`
reads `res.Body` when it is executed, before `err` is looked at: a nil `res`
panics there. -/
def ES.Index (lib : Lib) (e : ES) (index : String) (doc : GoAny) :
    Run (String × Option Error) :=
  match Encode lib doc with
  | .error err => ⟨[.jsonEncode doc], .ret ("", some err)⟩
  | .ok buf =>
    match e.Client.Index index buf with
    | (none, _) => ⟨[.jsonEncode doc, .index index buf], .panic⟩
    | (some res, some err) =>
      ⟨[.jsonEncode doc, .index index buf, .bodyClose res.Body], .ret ("", some err)⟩
    | (some res, none) =>
      ⟨[.jsonEncode doc, .index index buf, .bodyClose res.Body],
       .ret (lib.ResponseString (some res), none)⟩

/-- The method `IndexESApi(index, idx, doc)`, which has no result.
`log.Fatalf` writes its message and ends the process with `os.Exit(1)`;
deferred calls do not run. -/
def ES.IndexESApi (lib : Lib) (e : ES) (index idx : String) (doc : GoMap) : Run Unit :=
  match e.Client.Info with
  | (res, some err) =>
    ⟨[.info, .fmtPrintln [.response res, .error (some err)],
      .logFatalf "Error getting response: %s" [.error (some err)]], .exit 1⟩
  | (res, none) =>
    match Encode lib (.map doc) with
    | .error err =>
      ⟨[.info, .fmtPrintln [.response res, .error none], .jsonEncode (.map doc),
        .fmtPrintln [.error (some err), .text "Error encoding doc"]], .ret ()⟩
    | .ok buf =>
      let req : IndexRequest := { Index := index, Body := buf, DocumentID := idx }
      match e.Client.IndexRequestDo req .background with
      | (_, some err) =>
        ⟨[.info, .fmtPrintln [.response res, .error none], .jsonEncode (.map doc),
          .indexRequestDo req .background,
          .logFatalf "Error getting response: %s" [.error (some err)]], .exit 1⟩
      | (none, none) =>
        ⟨[.info, .fmtPrintln [.response res, .error none], .jsonEncode (.map doc),
          .indexRequestDo req .background], .panic⟩
      | (some res1, none) =>
        ⟨[.info, .fmtPrintln [.response res, .error none], .jsonEncode (.map doc),
          .indexRequestDo req .background,
          .fmtPrintln [.text (lib.ResponseString (some res1))],
          .logPrintln [.response (some res1)],
          .bodyClose res1.Body], .ret ()⟩

/-- The option list that `Search` assembles for the struct `w` and the
encoded query `buf`: five options, and `WithSort` appended when `w.sort` is
not the empty string. -/
def searchOptions (w : WithEsSearch) (buf : Bytes) : List SearchOption :=
  let options : List SearchOption :=
    [.WithContext .background, .WithIndex [w.index], .WithBody buf,
     .WithFrom w.from_, .WithSize w.size]
  if w.sort ≠ "" then options ++ [.WithSort [w.sort]] else options

/-- The method `Search(w)`.  The probe is made first; `w` is read (a nil `w`
panics) when the query is encoded. -/
def ES.Search (lib : Lib) (e : ES) (h : Heap) (w : Ptr) :
    Run (Option Bytes × Option Error) :=
  match e.Client.Info with
  | (_, some err) => ⟨[.info], .ret (none, some err)⟩
  | (_, none) =>
    match h.deref w with
    | none => ⟨[.info], .panic⟩
    | some o =>
      match Encode lib (.map o.query) with
      | .error err => ⟨[.info, .jsonEncode (.map o.query)], .ret (none, some err)⟩
      | .ok buf =>
        let options := searchOptions o buf
        match e.Client.Search options with
        | (none, _) => ⟨[.info, .jsonEncode (.map o.query), .search options], .panic⟩
        | (some res, some err) =>
          ⟨[.info, .jsonEncode (.map o.query), .search options, .bodyClose res.Body],
           .ret (none, some err)⟩
        | (some res, none) =>
          ⟨[.info, .jsonEncode (.map o.query), .search options, .bodyClose res.Body],
           .ret (ReadAll res.Body)⟩

/-- The method `Delete(index, idx)`. -/
def ES.Delete (lib : Lib) (e : ES) (index idx : String) : Run (String × Option Error) :=
  match e.Client.Info with
  | (res, some err) => ⟨[.info], .ret (lib.ResponseString res, some err)⟩
  | (_, none) =>
    match e.Client.Delete index idx with
    | (none, _) => ⟨[.info, .delete index idx], .panic⟩
    | (some res, some err) =>
      ⟨[.info, .delete index idx, .bodyClose res.Body], .ret ("", some err)⟩
    | (some res, none) =>
      ⟨[.info, .delete index idx, .bodyClose res.Body],
       .ret (lib.ResponseString (some res), none)⟩

/-- The method `DeleteByQuery(index, query)`; its only result is an `error`. -/
def ES.DeleteByQuery (lib : Lib) (e : ES) (index : List String) (query : GoMap) :
    Run (Option Error) :=
  match e.Client.Info with
  | (_, some err) => ⟨[.info], .ret (some err)⟩
  | (_, none) =>
    match Encode lib (.map query) with
    | .error err => ⟨[.info, .jsonEncode (.map query)], .ret (some err)⟩
    | .ok buf =>
      match e.Client.DeleteByQuery index buf with
      | (none, _) => ⟨[.info, .jsonEncode (.map query), .deleteByQuery index buf], .panic⟩
      | (some res, some err) =>
        ⟨[.info, .jsonEncode (.map query), .deleteByQuery index buf, .bodyClose res.Body],
         .ret (some err)⟩
      | (some res, none) =>
        ⟨[.info, .jsonEncode (.map query), .deleteByQuery index buf, .bodyClose res.Body],
         .ret none⟩

/-- The method `SearchEsapiSql(query)`: the error is checked before the
release of the body is deferred. -/
def ES.SearchEsapiSql (lib : Lib) (e : ES) (query : GoMap) : Run (String × Option Error) :=
  let jsonBody := marshalIgnoringError lib (.map query)
  let req : SQLQueryRequest := { Body := jsonBody }
  match e.Client.SQLQueryRequestDo req .background with
  | (_, some err) =>
    ⟨[.jsonMarshal (.map query), .sqlQueryRequestDo req .background], .ret ("", some err)⟩
  | (none, none) =>
    ⟨[.jsonMarshal (.map query), .sqlQueryRequestDo req .background], .panic⟩
  | (some res, none) =>
    ⟨[.jsonMarshal (.map query), .sqlQueryRequestDo req .background, .bodyClose res.Body],
     .ret (lib.ResponseString (some res), none)⟩

/-- The method `SearchHttp(method, url, query)`.  The result string holds the
bytes that `buf.ReadFrom(res.Body)` read; the error of that read is dropped. -/
def ES.SearchHttp (lib : Lib) (e : ES) (method url : String) (query : GoMap) :
    Run (Bytes × Option Error) :=
  let jsonBody := marshalIgnoringError lib (.map query)
  match lib.NewRequest method url jsonBody with
  | (_, some err) =>
    ⟨[.jsonMarshal (.map query), .newRequest method url jsonBody], .ret ([], some err)⟩
  | (none, none) =>
    ⟨[.jsonMarshal (.map query), .newRequest method url jsonBody], .panic⟩
  | (some req0, none) =>
    let req := req0.headerAdd lib "Content-type" "application/json"
    match e.Client.Perform req with
    | (_, some err) =>
      ⟨[.jsonMarshal (.map query), .newRequest method url jsonBody, .perform req],
       .ret ([], some err)⟩
    | (none, none) =>
      ⟨[.jsonMarshal (.map query), .newRequest method url jsonBody, .perform req], .panic⟩
    | (some res, none) =>
      ⟨[.jsonMarshal (.map query), .newRequest method url jsonBody, .perform req,
        .bodyClose res.Body], .ret (res.Body.data, none)⟩

/-! ## Sample values -/

/-- A struct with non-default fields. -/
def sampleParams : WithEsSearch :=
  { index := "trans_log", query := [], from_ := 20, size := 5,
    sort := "time:desc" }

/-- A heap with two structs; address 1 holds `sampleParams`. -/
def sampleHeap : Heap :=
  ⟨[{ index := "other", query := [], from_ := 0, size := 10, sort := "" }, sampleParams]⟩

/-- A marshaller for a few values: `null`, the booleans, the empty map and the
empty slice give their JSON text; every other value is rejected. -/
def sampleMarshal : GoAny → Except Error Bytes
  | .null => .ok [110, 117, 108, 108]
  | .bool true => .ok [116, 114, 117, 101]
  | .bool false => .ok [102, 97, 108, 115, 101]
  | .map [] => .ok [123, 125]
  | .slice [] => .ok [91, 93]
  | _ => .error ⟨"json: unsupported value"⟩

/-- A response with status 200 and body `{}`. -/
def okResponse : Response :=
  { StatusCode := 200, Header := [], Body := { data := [123, 125], readErr := none } }

/-- The error of a request that did not reach the cluster. -/
def transportError : Error := ⟨"dial tcp: i/o timeout"⟩

/-- A client whose probe answers `probe` and whose every other call answers
`main`. -/
def clientWith (probe main : Resp) : Client :=
  { Info := probe
    Index := fun _ _ => main
    IndexRequestDo := fun _ _ => main
    Search := fun _ => main
    Delete := fun _ _ => main
    DeleteByQuery := fun _ _ => main
    SQLQueryRequestDo := fun _ _ => main
    Perform := fun _ =>
      (main.1.map fun r => { StatusCode := r.StatusCode, Header := r.Header, Body := r.Body },
       main.2) }

/-- A client whose every call succeeds. -/
def healthyClient : Client := clientWith (some okResponse, none) (some okResponse, none)

/-- A client that cannot reach the cluster: every call gives a nil response and
an error, as the client library does when the transport fails. -/
def unreachableClient : Client :=
  clientWith (none, some transportError) (none, some transportError)

/-- A client whose probe succeeds and whose every other call gives a nil
response and an error. -/
def failingMainClient : Client :=
  clientWith (some okResponse, none) (none, some transportError)

/-- Sample library routines. -/
def sampleLib : Lib :=
  { Marshal := sampleMarshal
    ResponseString := fun r =>
      match r with
      | none => "[0 <nil>]"
      | some _ => "[200 OK] {}"
    NewRequest := fun method url body =>
      if url = "" then (none, some ⟨"empty url"⟩)
      else (some { Method := method, URL := url, Header := [], Body := body }, none)
    CanonicalMIMEHeaderKey := fun k => if k = "Content-type" then "Content-Type" else k
    NewClient := fun cfg =>
      if cfg.Addresses = [] then (none, some ⟨"no addresses"⟩) else (some healthyClient, none) }

/-! ## Lemmas on the heap -/

theorem Heap.deref_store_same (h : Heap) (a : Nat) (o o1 : WithEsSearch)
    (hlive : h.deref (some a) = some o) : (h.store a o1).deref (some a) = some o1 := by
  simp only [Heap.deref, Heap.store] at *
  have hlt : a < h.cells.length := by
    by_contra hge
    rw [List.getElem?_eq_none (Nat.le_of_not_lt hge)] at hlive
    cases hlive
  simp [List.getElem?_set, hlt]

theorem Heap.deref_store_other (h : Heap) (a b : Nat) (o1 : WithEsSearch) (hne : b ≠ a) :
    (h.store a o1).deref (some b) = h.deref (some b) := by
  simp only [Heap.deref, Heap.store]
  rw [List.getElem?_set_ne (Ne.symm hne)]

theorem Heap.store_store (h : Heap) (a : Nat) (o1 o2 : WithEsSearch) :
    (h.store a o1).store a o2 = h.store a o2 := by
  simp [Heap.store, List.set_set]

theorem Heap.store_deref (h : Heap) (a : Nat) (o : WithEsSearch)
    (hlive : h.deref (some a) = some o) : h.store a o = h := by
  cases h with
  | mk cells =>
    simp only [Heap.deref, Heap.store] at *
    congr 1
    apply List.ext_getElem?
    intro i
    by_cases hi : a = i
    · subst hi
      have hlt : a < cells.length := by
        by_contra hge
        rw [List.getElem?_eq_none (Nat.le_of_not_lt hge)] at hlive
        cases hlive
      simp [List.getElem?_set, hlt, hlive]
    · rw [List.getElem?_set_ne hi]

theorem runChain_eq (cs : List SetterCall) (h : Heap) (a : Nat) (o : WithEsSearch)
    (hlive : h.deref (some a) = some o) :
    runChain h (some a) cs = .ret (h.store a (chainResult o cs), some a) := by
  induction cs generalizing h o with
  | nil =>
    have hself : chainResult o [] = o := by
      cases o
      simp [chainResult, lastFrom, lastSize, lastSort]
    simp [runChain, hself, Heap.store_deref h a o hlive]
  | cons c cs ih =>
    have hcell : h.cells[a]? = some o := hlive
    cases c with
    | withEsFrom v =>
      have hnext := Heap.deref_store_same h a o { o with from_ := v } hlive
      have hfield : chainResult { o with from_ := v } cs
          = chainResult o (.withEsFrom v :: cs) := by
        cases hl : lastFrom cs <;> simp [chainResult, lastFrom, lastSize, lastSort, hl]
      simp only [runChain, SetterCall.run, WithEsFrom, hcell]
      rw [ih _ _ hnext, Heap.store_store, hfield]
    | withEsSize v =>
      have hnext := Heap.deref_store_same h a o { o with size := v } hlive
      have hfield : chainResult { o with size := v } cs
          = chainResult o (.withEsSize v :: cs) := by
        cases hl : lastSize cs <;> simp [chainResult, lastFrom, lastSize, lastSort, hl]
      simp only [runChain, SetterCall.run, WithEsSize, hcell]
      rw [ih _ _ hnext, Heap.store_store, hfield]
    | withEsSort v =>
      have hnext := Heap.deref_store_same h a o { o with sort := v } hlive
      have hfield : chainResult { o with sort := v } cs
          = chainResult o (.withEsSort v :: cs) := by
        cases hl : lastSort cs <;> simp [chainResult, lastFrom, lastSize, lastSort, hl]
      simp only [runChain, SetterCall.run, WithEsSort, hcell]
      rw [ih _ _ hnext, Heap.store_store, hfield]

/-! ## The claims -/

/-- C1: for every index name and query map, `NewWithEsSearch(index, query)`
returns a pointer to a struct whose index and query are the arguments, whose
from is 0, whose size is 10 and whose sort is the empty string; the structs
allocated before are left as they were. -/
theorem NewWithEsSearch_defaults (h : Heap) (index : String) (query : GoMap) :
    (NewWithEsSearch h index query).1.deref (NewWithEsSearch h index query).2
        = some { index := index, query := query, from_ := 0, size := 10, sort := "" }
      ∧ (NewWithEsSearch h index query).2 ≠ none
      ∧ ∀ b o, h.deref (some b) = some o →
          (NewWithEsSearch h index query).1.deref (some b) = some o := by
  refine ⟨by simp [NewWithEsSearch, Heap.deref], by simp [NewWithEsSearch], ?_⟩
  intro b o hb
  simp only [Heap.deref, NewWithEsSearch] at *
  have hlt : b < h.cells.length := by
    by_contra hge
    rw [List.getElem?_eq_none (Nat.le_of_not_lt hge)] at hb
    cases hb
  rw [List.getElem?_append_left hlt]
  exact hb

/-- C2: on a live struct `o` at address `a`, each setter (for any integer,
negative ones included, and any string) returns the pointer it was called on,
stores exactly its argument in its own field, leaves the four other fields of
the struct as they were, and leaves every other struct untouched. -/
theorem setters_store_own_field (h : Heap) (a : Nat) (o : WithEsSearch)
    (hlive : h.deref (some a) = some o) (v : Int) (s : String) :
    (∃ h1, WithEsFrom h (some a) v = .ret (h1, some a)
        ∧ h1.deref (some a) = some { index := o.index, query := o.query, from_ := v,
                                      size := o.size, sort := o.sort }
        ∧ ∀ b, b ≠ a → h1.deref (some b) = h.deref (some b))
      ∧ (∃ h1, WithEsSize h (some a) v = .ret (h1, some a)
        ∧ h1.deref (some a) = some { index := o.index, query := o.query, from_ := o.from_,
                                      size := v, sort := o.sort }
        ∧ ∀ b, b ≠ a → h1.deref (some b) = h.deref (some b))
      ∧ (∃ h1, WithEsSort h (some a) s = .ret (h1, some a)
        ∧ h1.deref (some a) = some { index := o.index, query := o.query, from_ := o.from_,
                                      size := o.size, sort := s }
        ∧ ∀ b, b ≠ a → h1.deref (some b) = h.deref (some b)) := by
  have hcell : h.cells[a]? = some o := hlive
  refine ⟨⟨h.store a { o with from_ := v }, ?_, ?_, ?_⟩,
    ⟨h.store a { o with size := v }, ?_, ?_, ?_⟩,
    ⟨h.store a { o with sort := s }, ?_, ?_, ?_⟩⟩
  · simp [WithEsFrom, hcell]
  · exact Heap.deref_store_same h a o _ hlive
  · exact fun b hb => Heap.deref_store_other h a b _ hb
  · simp [WithEsSize, hcell]
  · exact Heap.deref_store_same h a o _ hlive
  · exact fun b hb => Heap.deref_store_other h a b _ hb
  · simp [WithEsSort, hcell]
  · exact Heap.deref_store_same h a o _ hlive
  · exact fun b hb => Heap.deref_store_other h a b _ hb

/-- Witness of C2: the setters called with `-7` and `"_score"` on the struct
at address 1 of the sample heap. -/
theorem setters_store_own_field_witness :
    sampleHeap.deref (some 1) = some sampleParams
      ∧ (∃ h1, WithEsFrom sampleHeap (some 1) (-7) = .ret (h1, some 1)
        ∧ h1.deref (some 1) = some { index := "trans_log", query := [],
                                      from_ := -7, size := 5, sort := "time:desc" }
        ∧ ∀ b, b ≠ 1 → h1.deref (some b) = sampleHeap.deref (some b)) :=
  ⟨rfl, (setters_store_own_field sampleHeap 1 sampleParams rfl (-7) "_score").1⟩

/-- C10: a chain of setter calls on a live struct `o` at address `a` returns
the pointer it started from and leaves in each of from, size and sort the
last value the chain gave that field (the value of `o` when it gave none),
with index and query as in `o` and every other struct untouched; two chains
that agree on the last value given to each field end in the same state;
setters of different fields commute, and of two calls of one setter only the
second value is kept. -/
theorem setter_chain_last_value_wins (h : Heap) (a : Nat) (o : WithEsSearch)
    (hlive : h.deref (some a) = some o) (cs : List SetterCall) :
    (∃ h1, runChain h (some a) cs = .ret (h1, some a)
        ∧ h1.deref (some a) = some { index := o.index, query := o.query,
                                      from_ := (lastFrom cs).getD o.from_,
                                      size := (lastSize cs).getD o.size,
                                      sort := (lastSort cs).getD o.sort }
        ∧ ∀ b, b ≠ a → h1.deref (some b) = h.deref (some b))
      ∧ (∀ ds, lastFrom ds = lastFrom cs → lastSize ds = lastSize cs →
          lastSort ds = lastSort cs → runChain h (some a) ds = runChain h (some a) cs)
      ∧ (∀ x y, runChain h (some a) [.withEsFrom x, .withEsSize y]
          = runChain h (some a) [.withEsSize y, .withEsFrom x])
      ∧ (∀ x t, runChain h (some a) [.withEsFrom x, .withEsSort t]
          = runChain h (some a) [.withEsSort t, .withEsFrom x])
      ∧ (∀ y t, runChain h (some a) [.withEsSize y, .withEsSort t]
          = runChain h (some a) [.withEsSort t, .withEsSize y])
      ∧ (∀ x y, runChain h (some a) [.withEsFrom x, .withEsFrom y]
          = runChain h (some a) [.withEsFrom y])
      ∧ (∀ x y, runChain h (some a) [.withEsSize x, .withEsSize y]
          = runChain h (some a) [.withEsSize y])
      ∧ (∀ s t, runChain h (some a) [.withEsSort s, .withEsSort t]
          = runChain h (some a) [.withEsSort t]) := by
  have hdep : ∀ ds es : List SetterCall, lastFrom ds = lastFrom es →
      lastSize ds = lastSize es → lastSort ds = lastSort es →
      runChain h (some a) ds = runChain h (some a) es := by
    intro ds es h1 h2 h3
    rw [runChain_eq ds h a o hlive, runChain_eq es h a o hlive]
    simp [chainResult, h1, h2, h3]
  refine ⟨⟨h.store a (chainResult o cs), runChain_eq cs h a o hlive,
      Heap.deref_store_same h a o _ hlive,
      fun b hb => Heap.deref_store_other h a b _ hb⟩,
    fun ds h1 h2 h3 => hdep ds cs h1 h2 h3, ?_, ?_, ?_, ?_, ?_, ?_⟩
  all_goals
    intro x y
    apply hdep <;> simp [lastFrom, lastSize, lastSort]

/-- Witness of C10: the chain `WithEsFrom(3).WithEsSort("a").WithEsFrom(-1)` on
the struct at address 1 of the sample heap leaves from = -1, size = 5 (never
set), sort = "a". -/
theorem setter_chain_last_value_wins_witness :
    sampleHeap.deref (some 1) = some sampleParams
      ∧ ∃ h1, runChain sampleHeap (some 1) [.withEsFrom 3, .withEsSort "a", .withEsFrom (-1)]
            = .ret (h1, some 1)
        ∧ h1.deref (some 1) = some { index := "trans_log", query := [],
                                      from_ := -1, size := 5, sort := "a" }
        ∧ ∀ b, b ≠ 1 → h1.deref (some b) = sampleHeap.deref (some b) :=
  ⟨rfl, (setter_chain_last_value_wins sampleHeap 1 sampleParams rfl
    [.withEsFrom 3, .withEsSort "a", .withEsFrom (-1)]).1⟩

/-- C3: when the probe succeeds and the query of the struct `o` behind `w`
encodes to `buf`, `Search` probes, encodes the query and then calls the
client's search with the options context, index = `o.index`, body = `buf`,
from = `o.from_`, size = `o.size`, in that order, followed by a sort option
carrying `o.sort` exactly when `o.sort` is not the empty string. -/
theorem Search_assembles_options (lib : Lib) (e : ES) (h : Heap) (w : Ptr)
    (o : WithEsSearch) (r : Option Response) (buf : Bytes)
    (hw : h.deref w = some o) (hprobe : e.Client.Info = (r, none))
    (henc : Encode lib (.map o.query) = .ok buf) :
    [Event.info, .jsonEncode (.map o.query),
      .search ([.WithContext .background, .WithIndex [o.index], .WithBody buf,
                .WithFrom o.from_, .WithSize o.size]
               ++ if o.sort = "" then [] else [.WithSort [o.sort]])]
      <+: (ES.Search lib e h w).events := by
  have hopts : searchOptions o buf
      = [.WithContext .background, .WithIndex [o.index], .WithBody buf,
          .WithFrom o.from_, .WithSize o.size]
        ++ if o.sort = "" then [] else [.WithSort [o.sort]] := by
    by_cases hs : o.sort = "" <;> simp [searchOptions, hs]
  simp only [ES.Search, hprobe, hw, henc]
  rw [← hopts]
  rcases hres : e.Client.Search (searchOptions o buf) with ⟨_ | res, _ | err⟩
  · exact List.prefix_refl _
  · exact List.prefix_refl _
  · exact ⟨[.bodyClose res.Body], rfl⟩
  · exact ⟨[.bodyClose res.Body], rfl⟩

/-- Witness of C3: `Search` on the struct at address 1 of the sample heap, whose
sort is `"time:desc"`, with a healthy client. -/
theorem Search_assembles_options_witness :
    [Event.info, .jsonEncode (.map []),
      .search [.WithContext .background, .WithIndex ["trans_log"], .WithBody [123, 125, 10],
                .WithFrom 20, .WithSize 5, .WithSort ["time:desc"]]]
      <+: (ES.Search sampleLib ⟨healthyClient⟩ sampleHeap (some 1)).events :=
  Search_assembles_options sampleLib ⟨healthyClient⟩ sampleHeap (some 1) sampleParams
    (some okResponse) [123, 125, 10] rfl rfl rfl

/-- C4, the code at the failing inputs.  With a client whose probe fails,
`IndexESApi` prints the answer, logs the error with `log.Fatalf` and ends the
process with exit status 1: the failure is not handed to the caller.  With a
client whose probe succeeds and whose main call fails the way the client
library reports a failure (nil response, non-nil error), `Index` and `Delete`
panic on `res.Body` instead of returning the error. -/
theorem client_failure_exits_or_panics :
    unreachableClient.Info = (none, some transportError)
      ∧ ES.IndexESApi sampleLib ⟨unreachableClient⟩ "trans_log" "1" []
        = ⟨[.info, .fmtPrintln [.response none, .error (some transportError)],
            .logFatalf "Error getting response: %s" [.error (some transportError)]],
           .exit 1⟩
      ∧ failingMainClient.IndexRequestDo ⟨"trans_log", [123, 125, 10], "1"⟩ .background
        = (none, some transportError)
      ∧ ES.IndexESApi sampleLib ⟨failingMainClient⟩ "trans_log" "1" []
        = ⟨[.info, .fmtPrintln [.response (some okResponse), .error none],
            .jsonEncode (.map []),
            .indexRequestDo ⟨"trans_log", [123, 125, 10], "1"⟩ .background,
            .logFatalf "Error getting response: %s" [.error (some transportError)]],
           .exit 1⟩
      ∧ failingMainClient.Index "trans_log" [123, 125, 10] = (none, some transportError)
      ∧ ES.Index sampleLib ⟨failingMainClient⟩ "trans_log" (.map [])
        = ⟨[.jsonEncode (.map []), .index "trans_log" [123, 125, 10]], .panic⟩
      ∧ failingMainClient.Delete "trans_log" "1" = (none, some transportError)
      ∧ ES.Delete sampleLib ⟨failingMainClient⟩ "trans_log" "1"
        = ⟨[.info, .delete "trans_log" "1"], .panic⟩ :=
  ⟨rfl, rfl, rfl, rfl, rfl, rfl, rfl, rfl⟩

/-- C5, the code at the failing input: the probe succeeds, the search call
fails the way the client library reports a failure (nil response, non-nil
error), and `Search` panics on `res.Body` instead of returning the error. -/
theorem Search_panics_on_failed_search :
    failingMainClient.Info = (some okResponse, none)
      ∧ failingMainClient.Search (searchOptions sampleParams [123, 125, 10])
        = (none, some transportError)
      ∧ ES.Search sampleLib ⟨failingMainClient⟩ sampleHeap (some 1)
        = ⟨[.info, .jsonEncode (.map []),
            .search [.WithContext .background, .WithIndex ["trans_log"],
                     .WithBody [123, 125, 10], .WithFrom 20, .WithSize 5,
                     .WithSort ["time:desc"]]],
           .panic⟩ :=
  ⟨rfl, rfl, rfl⟩

/-- C6, the code at the failing input: the probe and the encoding succeed, the
delete-by-query call fails with a nil response and an error, and
`DeleteByQuery` panics on `res.Body` instead of returning the error. -/
theorem DeleteByQuery_panics_on_failed_call :
    failingMainClient.Info = (some okResponse, none)
      ∧ failingMainClient.DeleteByQuery ["trans_log"] [123, 125, 10]
        = (none, some transportError)
      ∧ ES.DeleteByQuery sampleLib ⟨failingMainClient⟩ ["trans_log"] []
        = ⟨[.info, .jsonEncode (.map []), .deleteByQuery ["trans_log"] [123, 125, 10]],
           .panic⟩ :=
  ⟨rfl, rfl, rfl⟩

/-- C7, counterexample: for the payload `null`, `json.Marshal` gives the four
bytes of `null`, and the body `Index` hands to the client's index call is those
bytes followed by a newline: the two differ. -/
theorem Index_body_is_not_marshal_output :
    sampleLib.Marshal .null = .ok [110, 117, 108, 108]
      ∧ (ES.Index sampleLib ⟨healthyClient⟩ "trans_log" .null).events
        = [.jsonEncode .null, .index "trans_log" [110, 117, 108, 108, 10],
           .bodyClose okResponse.Body]
      ∧ ([110, 117, 108, 108, 10] : Bytes) ≠ [110, 117, 108, 108] :=
  ⟨rfl, rfl, by decide⟩

/-- C7, amended: for a payload that `json.Marshal` serialises to `b`, the first
thing `Index` does after encoding is the client's index call with the index
name and the body `b` followed by one newline byte, a body that is never `b`
itself; and when the encoding fails with `err`, `Index` returns the empty
string and `err` and makes no call on the client. -/
theorem Index_body_and_encoding_failure (lib : Lib) (e : ES) (index : String) (doc : GoAny) :
    (∀ b, lib.Marshal doc = .ok b →
        [Event.jsonEncode doc, .index index (b ++ [10])] <+: (ES.Index lib e index doc).events
          ∧ b ++ [10] ≠ b)
      ∧ (∀ err, lib.Marshal doc = .error err →
        ES.Index lib e index doc = ⟨[.jsonEncode doc], .ret ("", some err)⟩) := by
  constructor
  · intro b hb
    have henc : Encode lib doc = .ok (b ++ [10]) := by simp [Encode, hb]
    constructor
    · simp only [ES.Index, henc]
      rcases hres : e.Client.Index index (b ++ [10]) with ⟨_ | res, _ | err⟩
      · exact List.prefix_refl _
      · exact List.prefix_refl _
      · exact ⟨[.bodyClose res.Body], rfl⟩
      · exact ⟨[.bodyClose res.Body], rfl⟩
    · intro hcontra
      have hlen := congrArg List.length hcontra
      simp at hlen
  · intro err herr
    have henc : Encode lib doc = .error err := by simp [Encode, herr]
    simp [ES.Index, henc]

/-- Witness of C7 amended: `null` is sent as `null` and a newline, and the
function value `func`, which the marshaller rejects, is not sent at all. -/
theorem Index_body_and_encoding_failure_witness :
    ([Event.jsonEncode .null, .index "trans_log" [110, 117, 108, 108, 10]]
        <+: (ES.Index sampleLib ⟨healthyClient⟩ "trans_log" .null).events)
      ∧ ES.Index sampleLib ⟨healthyClient⟩ "trans_log" .func
        = ⟨[.jsonEncode .func], .ret ("", some ⟨"json: unsupported value"⟩)⟩ :=
  ⟨((Index_body_and_encoding_failure sampleLib ⟨healthyClient⟩ "trans_log" .null).1
      [110, 117, 108, 108] rfl).1,
   (Index_body_and_encoding_failure sampleLib ⟨healthyClient⟩ "trans_log" .func).2
      ⟨"json: unsupported value"⟩ rfl⟩

/-- C8: for every configuration there is one client configuration, with the
addresses, username and password of the argument and a transport with a
per-host idle-connection cap of 10, a response-header timeout and a dial
timeout of one second (1000000000 ns), TLS minimum version 1.2 (0x0303) and
certificate verification skipped, such that whatever the library constructor
is, `NewESClient` returns what the constructor makes of that configuration:
`(nil, err)` exactly when the constructor fails with `err`, and otherwise the
constructor's handle with a nil error. -/
theorem NewESClient_builds_config (config : EsConfig) :
    ∃ cfg : ElasticConfig,
      cfg.Addresses = config.Address
        ∧ cfg.Username = config.UserName
        ∧ cfg.Password = config.Password
        ∧ cfg.Transport.MaxIdleConnsPerHost = 10
        ∧ cfg.Transport.ResponseHeaderTimeout = 1000000000
        ∧ cfg.Transport.DialContext.Timeout = 1000000000
        ∧ cfg.Transport.TLSClientConfig.MinVersion = 0x0303
        ∧ cfg.Transport.TLSClientConfig.InsecureSkipVerify = true
        ∧ ∀ lib : Lib, ∃ r, NewESClient lib (some config) = .ret r
            ∧ (∀ err, r = (none, some err) ↔ (lib.NewClient cfg).2 = some err)
            ∧ ((lib.NewClient cfg).2 = none → r = ((lib.NewClient cfg).1, none)) := by
  refine ⟨clientConfig config, rfl, rfl, rfl, rfl, rfl, rfl, rfl, rfl, ?_⟩
  intro lib
  rcases hnew : lib.NewClient (clientConfig config) with ⟨c, _ | err⟩
  · exact ⟨(c, none), by simp [NewESClient, hnew], by simp, by simp⟩
  · refine ⟨(none, some err), by simp [NewESClient, hnew], ?_, by simp⟩
    intro err1
    constructor
    · intro heq
      simpa using congrArg Prod.snd heq
    · intro heq
      have : err = err1 := by simpa using heq
      rw [this]

/-- C9: in `Index`, `Search`, `Delete` and `DeleteByQuery` the release of the
response body is registered before the error of the main call is looked at:
a main call that gives a nil response panics whatever error comes with it, so
that an error with a nil response is never returned, and a main call that
gives an error with a response has the body released before the error is
returned; in `SearchEsapiSql` and `SearchHttp` a main call that gives an
error, with or without a response, makes the operation return that error, and
no response body is touched. -/
theorem release_before_error_check (lib : Lib) (e : ES) (x : Option Error) (err : Error) :
    (∀ index doc buf, Encode lib doc = .ok buf → e.Client.Index index buf = (none, x) →
        (ES.Index lib e index doc).outcome = .panic)
      ∧ (∀ r h w o buf, e.Client.Info = (r, none) → h.deref w = some o →
        Encode lib (.map o.query) = .ok buf →
        e.Client.Search (searchOptions o buf) = (none, x) →
        (ES.Search lib e h w).outcome = .panic)
      ∧ (∀ r index idx, e.Client.Info = (r, none) → e.Client.Delete index idx = (none, x) →
        (ES.Delete lib e index idx).outcome = .panic)
      ∧ (∀ r index query buf, e.Client.Info = (r, none) →
        Encode lib (.map query) = .ok buf →
        e.Client.DeleteByQuery index buf = (none, x) →
        (ES.DeleteByQuery lib e index query).outcome = .panic)
      ∧ (∀ res index doc buf, Encode lib doc = .ok buf →
        e.Client.Index index buf = (some res, some err) →
        ES.Index lib e index doc
          = ⟨[.jsonEncode doc, .index index buf, .bodyClose res.Body], .ret ("", some err)⟩)
      ∧ (∀ r res h w o buf, e.Client.Info = (r, none) → h.deref w = some o →
        Encode lib (.map o.query) = .ok buf →
        e.Client.Search (searchOptions o buf) = (some res, some err) →
        ES.Search lib e h w
          = ⟨[.info, .jsonEncode (.map o.query), .search (searchOptions o buf),
              .bodyClose res.Body], .ret (none, some err)⟩)
      ∧ (∀ r res index idx, e.Client.Info = (r, none) →
        e.Client.Delete index idx = (some res, some err) →
        ES.Delete lib e index idx
          = ⟨[.info, .delete index idx, .bodyClose res.Body], .ret ("", some err)⟩)
      ∧ (∀ r res index query buf, e.Client.Info = (r, none) →
        Encode lib (.map query) = .ok buf →
        e.Client.DeleteByQuery index buf = (some res, some err) →
        ES.DeleteByQuery lib e index query
          = ⟨[.info, .jsonEncode (.map query), .deleteByQuery index buf,
              .bodyClose res.Body], .ret (some err)⟩)
      ∧ (∀ r query,
        e.Client.SQLQueryRequestDo ⟨marshalIgnoringError lib (.map query)⟩ .background
          = (r, some err) →
        ES.SearchEsapiSql lib e query
          = ⟨[.jsonMarshal (.map query),
              .sqlQueryRequestDo ⟨marshalIgnoringError lib (.map query)⟩ .background],
             .ret ("", some err)⟩)
      ∧ (∀ r req method url query,
        lib.NewRequest method url (marshalIgnoringError lib (.map query)) = (some req, none) →
        e.Client.Perform (req.headerAdd lib "Content-type" "application/json")
          = (r, some err) →
        ES.SearchHttp lib e method url query
          = ⟨[.jsonMarshal (.map query),
              .newRequest method url (marshalIgnoringError lib (.map query)),
              .perform (req.headerAdd lib "Content-type" "application/json")],
             .ret ([], some err)⟩) := by
  refine ⟨?_, ?_, ?_, ?_, ?_, ?_, ?_, ?_, ?_, ?_⟩
  · intro index doc buf h1 h2
    simp [ES.Index, h1, h2]
  · intro r h w o buf h1 h2 h3 h4
    simp [ES.Search, h1, h2, h3, h4]
  · intro r index idx h1 h2
    simp [ES.Delete, h1, h2]
  · intro r index query buf h1 h2 h3
    simp [ES.DeleteByQuery, h1, h2, h3]
  · intro res index doc buf h1 h2
    simp [ES.Index, h1, h2]
  · intro r res h w o buf h1 h2 h3 h4
    simp [ES.Search, h1, h2, h3, h4]
  · intro r res index idx h1 h2
    simp [ES.Delete, h1, h2]
  · intro r res index query buf h1 h2 h3
    simp [ES.DeleteByQuery, h1, h2, h3]
  · intro r query h1
    simp [ES.SearchEsapiSql, h1]
  · intro r req method url query h1 h2
    simp [ES.SearchHttp, h1, h2]

/-- Witness of C9: with a client whose main calls give a nil response and an
error, `Index` panics and `SearchEsapiSql` returns the error. -/
theorem release_before_error_check_witness :
    failingMainClient.Index "trans_log" [123, 125, 10] = (none, some transportError)
      ∧ (ES.Index sampleLib ⟨failingMainClient⟩ "trans_log" (.map [])).outcome = .panic
      ∧ ES.SearchEsapiSql sampleLib ⟨failingMainClient⟩ []
        = ⟨[.jsonMarshal (.map []), .sqlQueryRequestDo ⟨[123, 125]⟩ .background],
           .ret ("", some transportError)⟩ :=
  ⟨rfl,
   (release_before_error_check sampleLib ⟨failingMainClient⟩ (some transportError)
      transportError).1 "trans_log" (.map []) [123, 125, 10] rfl rfl,
   (release_before_error_check sampleLib ⟨failingMainClient⟩ (some transportError)
      transportError).2.2.2.2.2.2.2.2.1 none [] rfl⟩

end Genesis.Es
